import Mathlib

/-!
# Verification of the order-placement service (`create_order` in `app.py`)

Shallow embedding of the order-creation flow of the MAG_web backend:
the database rows (`Item`, `Customer`, `Order`, `OrderItem`), the incoming
JSON request, and the `create_order` handler (validation, customer upsert,
order and line-item creation, stock decrement, commit/rollback).

Numeric request fields are modelled as `Int` (Python ints from JSON);
a `none` in an `Option` field models an absent JSON key.  Python truthiness
of an integer is `≠ 0`, of a string is `≠ ""`.  The SQLAlchemy session is
modelled by explicit state passing: all mutations are collected and applied
to the store only at `commit`; `commit_ok = false` models a storage failure
at commit, whose `rollback` leaves the store as it was before the request.
-/

/-- A row of the `item` table (the fields `create_order` reads or writes). -/
structure Item where
  id : Int
  name : String
  price : Int
  quantity_left : Int
  is_active : Bool
deriving Repr, DecidableEq

/-- A row of the `customer` table. -/
structure Customer where
  id : Int
  first_name : String
  last_name : String
  email : String
  phone : String
  address : String
  city : String
  postal_code : String
  country : String
deriving Repr, DecidableEq

/-- A row of the `order` table. -/
structure Order where
  id : Int
  customer_id : Int
  total_amount : Int
  status : String
  delivery_method : String
  store_id : Option String
  store_name : Option String
  store_address : Option String
  payment_method : String
  notes : String
deriving Repr, DecidableEq

/-- A row of the `order_item` table. -/
structure OrderItem where
  id : Int
  order_id : Int
  item_id : Int
  quantity : Int
  price_at_time : Int
deriving Repr, DecidableEq

/-- The database state visible to `create_order`, with the auto-increment
counters that `flush()` draws fresh primary keys from. -/
structure DBState where
  items : List Item
  customers : List Customer
  orders : List Order
  order_rows : List OrderItem
  next_customer_id : Int
  next_order_id : Int
  next_order_item_id : Int
deriving Repr, DecidableEq

/-- The `customer` object of the request JSON; `none` is an absent key. -/
structure CustomerData where
  first_name : Option String
  last_name : Option String
  email : Option String
  phone : Option String
  address : Option String
  city : Option String
  postal_code : Option String
  country : Option String
deriving Repr, DecidableEq

/-- One element of the request's `items` list. -/
structure LineItemData where
  item_id : Option Int
  quantity : Option Int
  price : Option Int
deriving Repr, DecidableEq

/-- The `store_info` object; the request carries `none` when the key is
absent or the dict is empty (both falsy in the handler). -/
structure StoreInfo where
  storeid : Option String
  storename : Option String
  storeaddress : Option String
deriving Repr, DecidableEq

/-- The order-creation request body. -/
structure OrderRequest where
  customer : Option CustomerData
  items : Option (List LineItemData)
  payment_method : Option String
  notes : Option String
  delivery_method : Option String
  store_info : Option StoreInfo
deriving Repr, DecidableEq

/-- The distinct error returns of `create_order` (each `jsonify({'error': ...})`
site), carrying the data interpolated into the message. -/
inductive OrderError where
  | missingField (field : String)            -- 400, 缺少必要欄位
  | missingCustomerField (field : String)    -- 400, 缺少客戶資料
  | emptyItems                               -- 400, 訂單必須包含至少一個商品
  | incompleteItemData                       -- 400, 商品資料不完整
  | itemNotFound (item_id : Int)             -- 404, 商品不存在
  | itemInactive (name : String)             -- 400, 商品已下架
  | insufficientStock (name : String) (left : Int)  -- 400, 庫存不足
  | createFailed                             -- 500, 創建訂單失敗
deriving Repr, DecidableEq

/-- HTTP status paired with each outcome of the handler. -/
def OrderError.statusCode : OrderError → Nat
  | .missingField _ => 400
  | .missingCustomerField _ => 400
  | .emptyItems => 400
  | .incompleteItemData => 400
  | .itemNotFound _ => 404
  | .itemInactive _ => 400
  | .insufficientStock _ _ => 400
  | .createFailed => 500

/-- Outcome of `create_order`: `created` is the 201 payload
`{order_id, total_amount}`, `failure` one of the error returns. -/
inductive CreateOrderResult where
  | created (order_id : Int) (total_amount : Int)
  | failure (e : OrderError)
deriving Repr, DecidableEq

/-- Embedding of `db.session.get(Item, item_id)`: primary-key lookup. -/
def getItem (stock : List Item) (item_id : Int) : Option Item :=
  stock.find? (fun it => it.id == item_id)

/-- First validation loop of `create_order` applied to the customer dict:
`if field not in customer_data or not customer_data[field]` over the six
required fields, in source order; returns the first offending field name. -/
def customerFieldMissing (cd : CustomerData) : Option String :=
  if cd.first_name.getD "" == "" then some "first_name"
  else if cd.last_name.getD "" == "" then some "last_name"
  else if cd.email.getD "" == "" then some "email"
  else if cd.phone.getD "" == "" then some "phone"
  else if cd.address.getD "" == "" then some "address"
  else if cd.city.getD "" == "" then some "city"
  else none

/-- A line item that passed validation: the resolved `Item` row and the
quantity/price the handler will use for it. -/
structure VLine where
  item : Item
  quantity : Int
  price : Int
deriving Repr, DecidableEq

/-- Body of the per-line-item validation loop:
`item_id = item_data.get('item_id')`, `quantity = item_data.get('quantity', 1)`,
`price = item_data.get('price')`, the falsiness check, the lookup, the
`is_active` check, and the stock check — in that order. -/
def lineCheck (stock : List Item) (li : LineItemData) : Except OrderError VLine :=
  let item_id := li.item_id.getD 0
  let quantity := li.quantity.getD 1
  let price := li.price.getD 0
  if item_id == 0 || quantity == 0 || price == 0 then
    .error .incompleteItemData
  else
    match getItem stock item_id with
    | none => .error (.itemNotFound item_id)
    | some item =>
      if !item.is_active then
        .error (.itemInactive item.name)
      else if item.quantity_left < quantity then
        .error (.insufficientStock item.name item.quantity_left)
      else
        .ok ⟨item, quantity, price⟩

/-- The whole per-line-item loop: validates each line in order, accumulating
`total_amount += price * quantity` and the `order_items` list; the first
failing line aborts the request. -/
def validateItems (stock : List Item) : List LineItemData → Except OrderError (Int × List VLine)
  | [] => .ok (0, [])
  | li :: rest =>
    match lineCheck stock li with
    | .error e => .error e
    | .ok v =>
      match validateItems stock rest with
      | .error e => .error e
      | .ok (t, vs) => .ok (v.price * v.quantity + t, v :: vs)

/-- Mutation of the first `Customer` row matching `email`
(`Customer.query.filter_by(email=...).first()` returns the first row and the
handler assigns to its fields in place). -/
def updateFirstByEmail (email : String) (f : Customer → Customer) : List Customer → List Customer
  | [] => []
  | c :: rest =>
    if c.email == email then f c :: rest
    else c :: updateFirstByEmail email f rest

/-- The field overwrites performed on an existing customer row:
`first_name`, `last_name`, `phone`, `address`, `city`, `postal_code`
(default `''`), `country` (default `'TW'`); `id` and `email` untouched. -/
def overwriteCustomer (cd : CustomerData) (c : Customer) : Customer :=
  { c with
    first_name := cd.first_name.getD ""
    last_name := cd.last_name.getD ""
    phone := cd.phone.getD ""
    address := cd.address.getD ""
    city := cd.city.getD ""
    postal_code := cd.postal_code.getD ""
    country := cd.country.getD "TW" }

/-- The customer upsert: returns the new customer table, the resolved
customer id (fetched by `flush()`), and the new auto-increment counter. -/
def upsertCustomer (customers : List Customer) (next_id : Int) (cd : CustomerData) :
    List Customer × Int × Int :=
  match customers.find? (fun c => c.email == cd.email.getD "") with
  | some c =>
    (updateFirstByEmail (cd.email.getD "") (overwriteCustomer cd) customers, c.id, next_id)
  | none =>
    (customers ++
      [{ id := next_id
         first_name := cd.first_name.getD ""
         last_name := cd.last_name.getD ""
         email := cd.email.getD ""
         phone := cd.phone.getD ""
         address := cd.address.getD ""
         city := cd.city.getD ""
         postal_code := cd.postal_code.getD ""
         country := cd.country.getD "TW" }],
     next_id, next_id + 1)

/-- The `OrderItem` rows created in the final loop, with consecutive
auto-increment ids starting at `start_id`. -/
def mkOrderRows (order_id : Int) (start_id : Int) : List VLine → List OrderItem
  | [] => []
  | v :: rest =>
    { id := start_id
      order_id := order_id
      item_id := v.item.id
      quantity := v.quantity
      price_at_time := v.price } :: mkOrderRows order_id (start_id + 1) rest

/-- The stock decrements of the final loop: `item.quantity_left -= quantity`
for each validated line, applied in order against the item table (the ORM
identity map makes repeated fetches of one id share one object, so repeated
lines accumulate on the same row). -/
def applyDecrements (stock : List Item) (vls : List VLine) : List Item :=
  vls.foldl
    (fun st v =>
      st.map (fun it =>
        if it.id == v.item.id then { it with quantity_left := it.quantity_left - v.quantity }
        else it))
    stock

/-- The effect phase of `create_order`, run only after every validation
passed: customer upsert, order row, order-item rows, stock decrements, then
`commit`.  `commit_ok = false` models a storage failure at commit: the
`except` branch rolls the session back, leaving the store unchanged, and
returns the generic 500 failure. -/
def commitOrder (s : DBState) (req : OrderRequest) (cd : CustomerData)
    (payment_method : String) (total_amount : Int) (vls : List VLine)
    (commit_ok : Bool) : DBState × CreateOrderResult :=
  let up := upsertCustomer s.customers s.next_customer_id cd
  let customers' := up.1
  let customer_id := up.2.1
  let next_cid' := up.2.2
  let delivery_method := req.delivery_method.getD ""
  let order : Order :=
    { id := s.next_order_id
      customer_id := customer_id
      total_amount := total_amount
      status := "pending"
      delivery_method := delivery_method
      store_id := req.store_info.bind (fun si => si.storeid)
      store_name := req.store_info.bind (fun si => si.storename)
      store_address := req.store_info.bind (fun si => si.storeaddress)
      payment_method := payment_method
      notes := req.notes.getD "" }
  let rows := mkOrderRows order.id s.next_order_item_id vls
  let s' : DBState :=
    { items := applyDecrements s.items vls
      customers := customers'
      orders := s.orders ++ [order]
      order_rows := s.order_rows ++ rows
      next_customer_id := next_cid'
      next_order_id := s.next_order_id + 1
      next_order_item_id := s.next_order_item_id + Int.ofNat vls.length }
  if commit_ok then (s', .created order.id total_amount)
  else (s, .failure .createFailed)

/-- The `create_order` handler (`POST /api/orders`): top-level required
fields, customer-field validation, non-empty items check, per-line
validation, then the effect phase. -/
def create_order (s : DBState) (req : OrderRequest) (commit_ok : Bool) :
    DBState × CreateOrderResult :=
  match req.customer with
  | none => (s, .failure (.missingField "customer"))
  | some cd =>
    match req.items with
    | none => (s, .failure (.missingField "items"))
    | some lines =>
      match req.payment_method with
      | none => (s, .failure (.missingField "payment_method"))
      | some payment_method =>
        match customerFieldMissing cd with
        | some f => (s, .failure (.missingCustomerField f))
        | none =>
          if lines.isEmpty then (s, .failure .emptyItems)
          else
            match validateItems s.items lines with
            | .error e => (s, .failure e)
            | .ok (total_amount, vls) =>
              commitOrder s req cd payment_method total_amount vls commit_ok

-- Concrete fixtures used in witnesses and counterexamples.

/-- A fully populated customer dict. -/
def cdAlice : CustomerData :=
  { first_name := some "Alice"
    last_name := some "Liu"
    email := some "alice@example.com"
    phone := some "0912345678"
    address := some "1 Main St"
    city := some "Taipei"
    postal_code := some "100"
    country := none }

/-- Item A of the spec's worked example: `quantity_left = 5`, active. -/
def itemA : Item :=
  { id := 1, name := "A", price := 10, quantity_left := 5, is_active := true }

/-- A store holding only `itemA`, with fresh auto-increment counters. -/
def s0 : DBState :=
  { items := [itemA]
    customers := []
    orders := []
    order_rows := []
    next_customer_id := 1
    next_order_id := 1
    next_order_item_id := 1 }

/-- The single line item of the spec's worked example: quantity 3 of item 1
at price 10. -/
def exLine : LineItemData := { item_id := some 1, quantity := some 3, price := some 10 }

/-- The one-element line-item list of the spec's worked example. -/
def exLines : List LineItemData := [exLine]

/-- The spec's worked example request: quantity 3 of item 1 at price 10. -/
def reqExample : OrderRequest :=
  { customer := some cdAlice
    items := some exLines
    payment_method := some "cod"
    notes := none
    delivery_method := none
    store_info := none }

/-- Two line items both referencing item 1, each within stock on its own. -/
def reqDup : OrderRequest :=
  { customer := some cdAlice
    items := some
      [{ item_id := some 1, quantity := some 3, price := some 10 },
       { item_id := some 1, quantity := some 3, price := some 10 }]
    payment_method := some "cod"
    notes := none
    delivery_method := none
    store_info := none }

/-- A delisted item with little stock (both inactive and short on stock). -/
def itemB : Item :=
  { id := 2, name := "B", price := 7, quantity_left := 2, is_active := false }

/-- A request ordering 9 units of item 1 (stock is only 5). -/
def reqTooMany : OrderRequest :=
  { customer := some cdAlice
    items := some [{ item_id := some 1, quantity := some 9, price := some 10 }]
    payment_method := some "cod"
    notes := none
    delivery_method := none
    store_info := none }

/-- A request referencing item id 9, which does not exist in `s0`. -/
def reqGhost : OrderRequest :=
  { customer := some cdAlice
    items := some [{ item_id := some 9, quantity := some 1, price := some 5 }]
    payment_method := some "cod"
    notes := none
    delivery_method := none
    store_info := none }

/-- A request whose line item carries an explicit `quantity` of `0` for the
existing, active, well-stocked item 1. -/
def reqZeroQty : OrderRequest :=
  { customer := some cdAlice
    items := some [{ item_id := some 1, quantity := some 0, price := some 10 }]
    payment_method := some "cod"
    notes := none
    delivery_method := none
    store_info := none }

/-- A request whose line item omits the `quantity` key entirely, for the
existing, active, well-stocked item 1. -/
def reqNoQty : OrderRequest :=
  { customer := some cdAlice
    items := some [{ item_id := some 1, quantity := none, price := some 10 }]
    payment_method := some "cod"
    notes := none
    delivery_method := none
    store_info := none }

/-- An existing customer row carrying the same email `reqExample` submits,
with different values in every mutable field. -/
def custBob : Customer :=
  { id := 7
    first_name := "Bob"
    last_name := "Wang"
    email := "alice@example.com"
    phone := "0000000000"
    address := "9 Old Rd"
    city := "Kaohsiung"
    postal_code := "800"
    country := "US" }

/-- The store `s0` with `custBob` already present in the customer table. -/
def s1 : DBState :=
  { items := [itemA]
    customers := [custBob]
    orders := []
    order_rows := []
    next_customer_id := 8
    next_order_id := 1
    next_order_item_id := 1 }

/-- Sum over the submitted line items of `price * quantity` exactly as the
handler reads them (`price = get('price')`, `quantity = get('quantity', 1)`). -/
def requestTotal : List LineItemData → Int
  | [] => 0
  | li :: rest => li.price.getD 0 * li.quantity.getD 1 + requestTotal rest

/-- Total quantity a request's line items order of item `i`. -/
def orderedQty : List LineItemData → Int → Int
  | [], _ => 0
  | li :: rest, i =>
    (if li.item_id.getD 0 == i then li.quantity.getD 1 else 0) + orderedQty rest i

/-- The `OrderItem` rows a request's line items give rise to, read straight
off the request. -/
def rowsOfLines (order_id : Int) (start_id : Int) : List LineItemData → List OrderItem
  | [] => []
  | li :: rest =>
    { id := start_id
      order_id := order_id
      item_id := li.item_id.getD 0
      quantity := li.quantity.getD 1
      price_at_time := li.price.getD 0 } :: rowsOfLines order_id (start_id + 1) rest

/-- Sum of `quantity * price_at_time` over `OrderItem` rows. -/
def orderRowsTotal : List OrderItem → Int
  | [] => 0
  | r :: rest => r.quantity * r.price_at_time + orderRowsTotal rest

/-- Total stock decrement a list of validated lines applies to item `i`. -/
def decTotal : List VLine → Int → Int
  | [], _ => 0
  | v :: rest, i => (if v.item.id == i then v.quantity else 0) + decTotal rest i

-- ## Helper lemmas

theorem getItem_eq_some {stock : List Item} {i : Int} {it : Item}
    (h : getItem stock i = some it) : it.id = i ∧ it ∈ stock := by
  unfold getItem at h
  refine ⟨?_, List.mem_of_find?_eq_some h⟩
  have := List.find?_some h
  simpa using this

theorem lineCheck_ok_facts {stock : List Item} {li : LineItemData} {v : VLine}
    (h : lineCheck stock li = .ok v) :
    li.item_id.getD 0 ≠ 0 ∧ v.quantity = li.quantity.getD 1 ∧ v.price = li.price.getD 0 ∧
    v.quantity ≠ 0 ∧ v.price ≠ 0 ∧
    getItem stock (li.item_id.getD 0) = some v.item ∧
    v.item.is_active = true ∧ ¬ v.item.quantity_left < v.quantity := by
  unfold lineCheck at h
  simp only at h
  split at h
  · simp at h
  · next hcond =>
    have hid : li.item_id.getD 0 ≠ 0 := fun hh => hcond (by simp [hh])
    have hq : li.quantity.getD 1 ≠ 0 := fun hh => hcond (by simp [hh])
    have hp : li.price.getD 0 ≠ 0 := fun hh => hcond (by simp [hh])
    split at h
    · simp at h
    · next item hfound =>
      split at h
      · simp at h
      · next hact =>
        split at h
        · simp at h
        · next hstock =>
          simp only [Except.ok.injEq] at h
          subst h
          simp only [Bool.not_eq_true', Bool.not_eq_false] at hact
          exact ⟨hid, rfl, rfl, hq, hp, hfound, hact, hstock⟩

theorem lineCheck_incomplete {stock : List Item} {li : LineItemData}
    (h : li.item_id.getD 0 = 0 ∨ li.quantity.getD 1 = 0 ∨ li.price.getD 0 = 0) :
    lineCheck stock li = .error .incompleteItemData := by
  unfold lineCheck
  simp only
  rw [if_pos]
  rcases h with h | h | h <;> simp [h]

theorem lineCheck_notFound {stock : List Item} {li : LineItemData}
    (h1 : li.item_id.getD 0 ≠ 0) (h2 : li.quantity.getD 1 ≠ 0) (h3 : li.price.getD 0 ≠ 0)
    (hfound : getItem stock (li.item_id.getD 0) = none) :
    lineCheck stock li = .error (.itemNotFound (li.item_id.getD 0)) := by
  unfold lineCheck
  simp only
  rw [if_neg (by simp [h1, h2, h3]), hfound]

theorem lineCheck_inactive {stock : List Item} {li : LineItemData} {it : Item}
    (h1 : li.item_id.getD 0 ≠ 0) (h2 : li.quantity.getD 1 ≠ 0) (h3 : li.price.getD 0 ≠ 0)
    (hfound : getItem stock (li.item_id.getD 0) = some it)
    (hact : it.is_active = false) :
    lineCheck stock li = .error (.itemInactive it.name) := by
  unfold lineCheck
  simp only
  rw [if_neg (by simp [h1, h2, h3]), hfound]
  simp [hact]

theorem lineCheck_insufficient {stock : List Item} {li : LineItemData} {it : Item}
    (h1 : li.item_id.getD 0 ≠ 0) (h2 : li.quantity.getD 1 ≠ 0) (h3 : li.price.getD 0 ≠ 0)
    (hfound : getItem stock (li.item_id.getD 0) = some it)
    (hact : it.is_active = true)
    (hq : it.quantity_left < li.quantity.getD 1) :
    lineCheck stock li = .error (.insufficientStock it.name it.quantity_left) := by
  unfold lineCheck
  simp only
  rw [if_neg (by simp [h1, h2, h3]), hfound]
  simp [hact, if_pos hq]

theorem lineCheck_ok_of_checks {stock : List Item} {li : LineItemData} {it : Item}
    (hid : li.item_id.getD 0 ≠ 0) (hq : li.quantity.getD 1 ≠ 0) (hp : li.price.getD 0 ≠ 0)
    (hfound : getItem stock (li.item_id.getD 0) = some it)
    (hact : it.is_active = true)
    (hstock : ¬ it.quantity_left < li.quantity.getD 1) :
    lineCheck stock li = .ok ⟨it, li.quantity.getD 1, li.price.getD 0⟩ := by
  unfold lineCheck
  simp only
  rw [if_neg (by simp [hid, hq, hp]), hfound]
  simp [hact, if_neg hstock]

theorem validateItems_ok_forall {stock : List Item} :
    ∀ {lines : List LineItemData} {t : Int} {vs : List VLine},
      validateItems stock lines = .ok (t, vs) →
      List.Forall₂ (fun li v => lineCheck stock li = .ok v) lines vs
  | [], t, vs, h => by
    unfold validateItems at h
    simp only [Except.ok.injEq, Prod.mk.injEq] at h
    rw [← h.2]
    exact List.Forall₂.nil
  | li :: rest, t, vs, h => by
    unfold validateItems at h
    split at h
    · simp at h
    · next v hv =>
      split at h
      · simp at h
      · next t' vs' hrest =>
        simp only [Except.ok.injEq, Prod.mk.injEq] at h
        rw [← h.2]
        exact List.Forall₂.cons hv (validateItems_ok_forall hrest)

theorem validateItems_ok_total {stock : List Item} :
    ∀ {lines : List LineItemData} {t : Int} {vs : List VLine},
      validateItems stock lines = .ok (t, vs) → t = requestTotal lines
  | [], t, vs, h => by
    unfold validateItems at h
    simp only [Except.ok.injEq, Prod.mk.injEq] at h
    simp [requestTotal, ← h.1]
  | li :: rest, t, vs, h => by
    unfold validateItems at h
    split at h
    · simp at h
    · next v hv =>
      split at h
      · simp at h
      · next t' vs' hrest =>
        simp only [Except.ok.injEq, Prod.mk.injEq] at h
        have ht' := validateItems_ok_total hrest
        simp [requestTotal, ← h.1, ht', (lineCheck_ok_facts hv).2.1,
          (lineCheck_ok_facts hv).2.2.1]

theorem forallTwo_mem_left {α β : Type} {R : α → β → Prop} :
    ∀ {l1 : List α} {l2 : List β}, List.Forall₂ R l1 l2 → ∀ {a : α}, a ∈ l1 → ∃ b, R a b
  | _, _, List.Forall₂.cons hr hrest, a, ha => by
    rcases List.mem_cons.mp ha with h | h
    · exact ⟨_, h ▸ hr⟩
    · exact forallTwo_mem_left hrest h

theorem mkOrderRows_eq_rowsOfLines {stock : List Item} {lines : List LineItemData}
    {vls : List VLine}
    (h : List.Forall₂ (fun li v => lineCheck stock li = .ok v) lines vls) :
    ∀ (oid sid : Int), mkOrderRows oid sid vls = rowsOfLines oid sid lines := by
  induction h with
  | nil => intro oid sid; rfl
  | cons hr hrest ih =>
    intro oid sid
    obtain ⟨_, hq, hp, _, _, hfound, _, _⟩ := lineCheck_ok_facts hr
    have hid := (getItem_eq_some hfound).1
    unfold mkOrderRows rowsOfLines
    rw [ih oid (sid + 1), hq, hp, hid]

theorem decTotal_eq_orderedQty {stock : List Item} {lines : List LineItemData}
    {vls : List VLine}
    (h : List.Forall₂ (fun li v => lineCheck stock li = .ok v) lines vls) :
    ∀ (i : Int), decTotal vls i = orderedQty lines i := by
  induction h with
  | nil => intro i; rfl
  | cons hr hrest ih =>
    intro i
    obtain ⟨_, hq, _, _, _, hfound, _, _⟩ := lineCheck_ok_facts hr
    have hid := (getItem_eq_some hfound).1
    unfold decTotal orderedQty
    rw [ih i, hq, hid]

theorem applyDecrements_eq_map :
    ∀ (vls : List VLine) (stock : List Item),
      applyDecrements stock vls
        = stock.map (fun it =>
            { it with quantity_left := it.quantity_left - decTotal vls it.id })
  | [], stock => by
    have hf : (fun it : Item =>
        { it with quantity_left := it.quantity_left - decTotal [] it.id }) = fun it => it := by
      funext it
      simp [decTotal]
    rw [applyDecrements, List.foldl_nil, hf, List.map_id']
  | v :: rest, stock => by
    have hstep : applyDecrements stock (v :: rest)
        = applyDecrements
            (stock.map (fun it =>
              if it.id == v.item.id then
                { it with quantity_left := it.quantity_left - v.quantity }
              else it))
            rest := rfl
    rw [hstep, applyDecrements_eq_map rest, List.map_map]
    have hf : ((fun it : Item =>
          { it with quantity_left := it.quantity_left - decTotal rest it.id }) ∘
        (fun it : Item =>
          if it.id == v.item.id then
            { it with quantity_left := it.quantity_left - v.quantity }
          else it))
        = fun it : Item =>
          { it with quantity_left := it.quantity_left - decTotal (v :: rest) it.id } := by
      funext it
      by_cases hc : it.id = v.item.id
      · simp [Function.comp, decTotal, hc, sub_sub]
      · simp [Function.comp, decTotal, hc, Ne.symm hc]
    rw [hf]

theorem orderRowsTotal_append (l1 l2 : List OrderItem) :
    orderRowsTotal (l1 ++ l2) = orderRowsTotal l1 + orderRowsTotal l2 := by
  induction l1 with
  | nil => simp [orderRowsTotal]
  | cons r rest ih => simp [orderRowsTotal, ih, add_assoc]

theorem orderRowsTotal_rowsOfLines (oid : Int) :
    ∀ (lines : List LineItemData) (sid : Int),
      orderRowsTotal (rowsOfLines oid sid lines) = requestTotal lines
  | [], _ => rfl
  | li :: rest, sid => by
    unfold rowsOfLines orderRowsTotal requestTotal
    rw [orderRowsTotal_rowsOfLines oid rest (sid + 1), mul_comm]

theorem rowsOfLines_order_id (oid : Int) :
    ∀ (lines : List LineItemData) (sid : Int), ∀ r ∈ rowsOfLines oid sid lines,
      r.order_id = oid
  | [], _, r, hr => by simp [rowsOfLines] at hr
  | li :: rest, sid, r, hr => by
    rw [rowsOfLines] at hr
    rcases List.mem_cons.mp hr with h | h
    · rw [h]
    · exact rowsOfLines_order_id oid rest (sid + 1) r h

theorem rowsOfLines_length (oid : Int) :
    ∀ (lines : List LineItemData) (sid : Int),
      (rowsOfLines oid sid lines).length = lines.length
  | [], _ => rfl
  | li :: rest, sid => by
    rw [rowsOfLines]
    simp [rowsOfLines_length oid rest (sid + 1)]

theorem filter_keep_all {rows : List OrderItem} {oid : Int}
    (hnew : ∀ r ∈ rows, r.order_id = oid) :
    rows.filter (fun r => r.order_id == oid) = rows := by
  induction rows with
  | nil => rfl
  | cons r rest ih =>
    have hr := hnew r (List.mem_cons_self r rest)
    simp only [List.filter_cons, hr, beq_self_eq_true, if_true]
    rw [ih (fun x hx => hnew x (List.mem_cons_of_mem r hx))]

theorem filter_drop_all {old : List OrderItem} {oid : Int}
    (hold : ∀ r ∈ old, r.order_id ≠ oid) :
    old.filter (fun r => r.order_id == oid) = [] := by
  induction old with
  | nil => rfl
  | cons r rest ih =>
    have hr := hold r (List.mem_cons_self r rest)
    simp only [List.filter_cons, beq_iff_eq, hr, if_false]
    exact ih (fun x hx => hold x (List.mem_cons_of_mem r hx))

theorem orderedQty_zero_of_not_mem {lines : List LineItemData} {i : Int}
    (h : ∀ li ∈ lines, li.item_id.getD 0 ≠ i) : orderedQty lines i = 0 := by
  induction lines with
  | nil => rfl
  | cons li rest ih =>
    have hli := h li (List.mem_cons_self li rest)
    rw [orderedQty]
    simp only [beq_iff_eq, hli, if_false]
    simp [ih (fun x hx => h x (List.mem_cons_of_mem li hx))]

theorem orderedQty_le_of_nodup {b : Int} :
    ∀ {lines : List LineItemData} {i : Int},
      (lines.map (fun li => li.item_id.getD 0)).Nodup →
      (∀ li ∈ lines, li.item_id.getD 0 = i → li.quantity.getD 1 ≤ b) →
      0 ≤ b → orderedQty lines i ≤ b
  | [], i, _, _, hb => by simpa [orderedQty] using hb
  | li :: rest, i, hnd, hle, hb => by
    rw [List.map_cons, List.nodup_cons] at hnd
    rw [orderedQty]
    by_cases hc : li.item_id.getD 0 = i
    · have hrest : orderedQty rest i = 0 := by
        refine orderedQty_zero_of_not_mem (fun x hx hxi => ?_)
        exact hnd.1 (by rw [hc, ← hxi]; exact List.mem_map_of_mem _ hx)
      simp only [beq_iff_eq, hc, if_true, hrest, add_zero]
      exact hle li (List.mem_cons_self li rest) hc
    · simp only [beq_iff_eq, hc, if_false, zero_add]
      exact orderedQty_le_of_nodup hnd.2
        (fun x hx => hle x (List.mem_cons_of_mem li hx)) hb

theorem updateFirstByEmail_length (email : String) (f : Customer → Customer) :
    ∀ (l : List Customer), (updateFirstByEmail email f l).length = l.length
  | [] => rfl
  | c :: rest => by
    unfold updateFirstByEmail
    split
    · simp
    · simp [updateFirstByEmail_length email f rest]

theorem updateFirstByEmail_split {email : String} {f : Customer → Customer} {c0 : Customer}
    (hc0 : c0.email = email) :
    ∀ {pre : List Customer}, (∀ c ∈ pre, c.email ≠ email) → ∀ (post : List Customer),
      updateFirstByEmail email f (pre ++ c0 :: post) = pre ++ f c0 :: post
  | [], _, post => by
    unfold updateFirstByEmail
    simp [hc0]
  | c :: pre, hpre, post => by
    have hc := hpre c (List.mem_cons_self c pre)
    have ih := @updateFirstByEmail_split email f c0 hc0 pre
      (fun x hx => hpre x (List.mem_cons_of_mem c hx)) post
    rw [List.cons_append]
    unfold updateFirstByEmail
    rw [if_neg (by simp [hc])]
    rw [ih, List.cons_append]

theorem find_first_email {e : String} {c0 : Customer} (hc0 : c0.email = e) :
    ∀ {pre : List Customer}, (∀ c ∈ pre, c.email ≠ e) → ∀ (post : List Customer),
      (pre ++ c0 :: post).find? (fun c => c.email == e) = some c0
  | [], _, post => by simp [List.find?_cons, hc0]
  | c :: pre, hpre, post => by
    have hc := hpre c (List.mem_cons_self c pre)
    have ih := find_first_email hc0 (fun x hx => hpre x (List.mem_cons_of_mem c hx)) post
    rw [List.cons_append, List.find?_cons]
    have hb : (c.email == e) = false := by simp [hc]
    rw [hb]
    exact ih

theorem validateItems_append_error {stock : List Item} {li : LineItemData} {e : OrderError}
    (hli : lineCheck stock li = .error e) :
    ∀ {pre : List LineItemData}, (∀ x ∈ pre, ∃ v, lineCheck stock x = .ok v) →
      ∀ (post : List LineItemData),
        validateItems stock (pre ++ li :: post) = .error e
  | [], _, post => by
    unfold validateItems
    simp [hli]
  | x :: pre, hpre, post => by
    obtain ⟨v, hv⟩ := hpre x (List.mem_cons_self x pre)
    have ih := validateItems_append_error hli (fun y hy => hpre y (List.mem_cons_of_mem x hy)) post
    unfold validateItems
    simp only [List.cons_append, hv, ih]

theorem lineCheck_error_ne_createFailed {stock : List Item} {li : LineItemData}
    {e : OrderError} (h : lineCheck stock li = .error e) : e ≠ .createFailed := by
  unfold lineCheck at h
  simp only at h
  split at h
  · simp only [Except.error.injEq] at h
    subst h
    simp
  · split at h
    · simp only [Except.error.injEq] at h
      subst h
      simp
    · split at h
      · simp only [Except.error.injEq] at h
        subst h
        simp
      · split at h
        · simp only [Except.error.injEq] at h
          subst h
          simp
        · simp at h

theorem validateItems_error_ne_createFailed {stock : List Item} :
    ∀ {lines : List LineItemData} {e : OrderError},
      validateItems stock lines = .error e → e ≠ .createFailed
  | [], e, h => by
    unfold validateItems at h
    simp at h
  | li :: rest, e, h => by
    unfold validateItems at h
    split at h
    · next e' he' =>
      simp only [Except.error.injEq] at h
      subst h
      exact lineCheck_error_ne_createFailed he'
    · next v hv =>
      split at h
      · next e' he' =>
        simp only [Except.error.injEq] at h
        subst h
        exact validateItems_error_ne_createFailed he'
      · simp at h

theorem statusCode_client {e : OrderError} (h : e ≠ .createFailed) :
    e.statusCode = 400 ∨ e.statusCode = 404 := by
  cases e <;> simp [OrderError.statusCode] at h ⊢

theorem commitOrder_not_ok (s : DBState) (req : OrderRequest) (cd : CustomerData)
    (pm : String) (t : Int) (vls : List VLine) :
    commitOrder s req cd pm t vls false = (s, .failure .createFailed) := rfl

theorem commitOrder_ok (s : DBState) (req : OrderRequest) (cd : CustomerData)
    (pm : String) (t : Int) (vls : List VLine) :
    commitOrder s req cd pm t vls true =
      ({ items := applyDecrements s.items vls
         customers := (upsertCustomer s.customers s.next_customer_id cd).1
         orders := s.orders ++
           [{ id := s.next_order_id
              customer_id := (upsertCustomer s.customers s.next_customer_id cd).2.1
              total_amount := t
              status := "pending"
              delivery_method := req.delivery_method.getD ""
              store_id := req.store_info.bind (fun si => si.storeid)
              store_name := req.store_info.bind (fun si => si.storename)
              store_address := req.store_info.bind (fun si => si.storeaddress)
              payment_method := pm
              notes := req.notes.getD "" }]
         order_rows := s.order_rows ++ mkOrderRows s.next_order_id s.next_order_item_id vls
         next_customer_id := (upsertCustomer s.customers s.next_customer_id cd).2.2
         next_order_id := s.next_order_id + 1
         next_order_item_id := s.next_order_item_id + Int.ofNat vls.length },
       .created s.next_order_id t) := rfl

theorem create_order_cases (s : DBState) (req : OrderRequest) (c : Bool) :
    (∃ e, create_order s req c = (s, .failure e) ∧ e ≠ .createFailed) ∨
    (∃ cd lines pm t vls,
       req.customer = some cd ∧ req.items = some lines ∧ req.payment_method = some pm ∧
       customerFieldMissing cd = none ∧ lines.isEmpty = false ∧
       validateItems s.items lines = .ok (t, vls) ∧
       create_order s req c = commitOrder s req cd pm t vls c) := by
  unfold create_order
  split
  · exact Or.inl ⟨_, rfl, by simp⟩
  next cd hcust =>
    split
    · exact Or.inl ⟨_, rfl, by simp⟩
    next lines hitems =>
      split
      · exact Or.inl ⟨_, rfl, by simp⟩
      next pm hpm =>
        split
        · exact Or.inl ⟨_, rfl, by simp⟩
        next hcf =>
          split
          · exact Or.inl ⟨_, rfl, by simp⟩
          next hemp =>
            split
            next e hval => exact Or.inl ⟨_, rfl, validateItems_error_ne_createFailed hval⟩
            next t vls hval =>
              exact Or.inr ⟨cd, lines, pm, t, vls, hcust, hitems, hpm, hcf,
                by simpa using hemp, hval, rfl⟩

theorem create_order_eq_commit {s : DBState} {req : OrderRequest} {cd : CustomerData}
    {lines : List LineItemData} {pm : String} {t : Int} {vls : List VLine}
    (h1 : req.customer = some cd) (h2 : req.items = some lines)
    (h3 : req.payment_method = some pm) (h4 : customerFieldMissing cd = none)
    (h5 : lines.isEmpty = false)
    (h6 : validateItems s.items lines = .ok (t, vls)) (c : Bool) :
    create_order s req c = commitOrder s req cd pm t vls c := by
  unfold create_order
  simp only [h1, h2, h3, h4, h5, h6, Bool.false_eq_true, if_false]

theorem create_order_unchanged_of_failure {s : DBState} {req : OrderRequest} {c : Bool}
    {e : OrderError} (h : (create_order s req c).2 = .failure e) :
    (create_order s req c).1 = s := by
  rcases create_order_cases s req c with ⟨e', heq, _⟩ |
    ⟨cd, lines, pm, t, vls, _, _, _, _, _, _, heq⟩
  · rw [heq]
  · cases c
    · rw [heq, commitOrder_not_ok]
    · rw [heq, commitOrder_ok] at h
      simp at h

theorem create_order_created_inv {s : DBState} {req : OrderRequest} {c : Bool}
    {oid total : Int} (h : (create_order s req c).2 = .created oid total) :
    c = true ∧ oid = s.next_order_id ∧
    ∃ cd lines pm vls,
      req.customer = some cd ∧ req.items = some lines ∧ req.payment_method = some pm ∧
      customerFieldMissing cd = none ∧ lines.isEmpty = false ∧
      validateItems s.items lines = .ok (total, vls) ∧
      create_order s req c = commitOrder s req cd pm total vls c := by
  rcases create_order_cases s req c with ⟨e', heq, _⟩ |
    ⟨cd, lines, pm, t, vls, h1, h2, h3, h4, h5, h6, heq⟩
  · rw [heq] at h
    simp at h
  · cases c
    · rw [heq, commitOrder_not_ok] at h
      simp at h
    · rw [heq, commitOrder_ok] at h
      simp only [CreateOrderResult.created.injEq] at h
      obtain ⟨hoid, ht⟩ := h
      subst ht
      exact ⟨rfl, hoid.symm, cd, lines, pm, vls, h1, h2, h3, h4, h5, h6, heq⟩

theorem reject_insufficient_aux {s : DBState} {req : OrderRequest} {c : Bool}
    {lines : List LineItemData} {li : LineItemData} {it : Item}
    (hlines : req.items = some lines) (hmem : li ∈ lines)
    (hfound : getItem s.items (li.item_id.getD 0) = some it)
    (hq : it.quantity_left < li.quantity.getD 1) :
    (create_order s req c).1 = s ∧ ∃ e, (create_order s req c).2 = .failure e := by
  cases hres : (create_order s req c).2 with
  | failure e => exact ⟨create_order_unchanged_of_failure hres, e, rfl⟩
  | created oid total =>
    obtain ⟨-, -, cd, lines', pm, vls, h1, h2, h3, h4, h5, h6, -⟩ :=
      create_order_created_inv hres
    rw [hlines] at h2
    have hll := Option.some.inj h2
    subst hll
    obtain ⟨v, hv⟩ := forallTwo_mem_left (validateItems_ok_forall h6) hmem
    obtain ⟨-, hqv, -, -, -, hfound', -, hnlt⟩ := lineCheck_ok_facts hv
    rw [hfound] at hfound'
    have hit := Option.some.inj hfound'
    rw [hit, ← hqv] at hq
    exact absurd hq hnlt

theorem stock_nonneg_aux {s : DBState} {req : OrderRequest}
    {lines : List LineItemData} {oid total : Int}
    (hids : (s.items.map Item.id).Nodup)
    (hnn : ∀ it ∈ s.items, 0 ≤ it.quantity_left)
    (hlines : req.items = some lines)
    (hdist : (lines.map (fun li => li.item_id.getD 0)).Nodup)
    (h : (create_order s req true).2 = .created oid total) :
    ∀ it ∈ (create_order s req true).1.items, 0 ≤ it.quantity_left := by
  obtain ⟨-, -, cd, lines', pm, vls, h1, h2, h3, h4, h5, h6, heq⟩ :=
    create_order_created_inv h
  rw [hlines] at h2
  have hll := Option.some.inj h2
  subst hll
  have hf2 := validateItems_ok_forall h6
  intro it' hit'
  rw [heq, commitOrder_ok] at hit'
  dsimp only at hit'
  rw [applyDecrements_eq_map] at hit'
  obtain ⟨it0, hit0, hdec⟩ := List.mem_map.mp hit'
  rw [← hdec]
  dsimp only
  rw [sub_nonneg, decTotal_eq_orderedQty hf2]
  refine orderedQty_le_of_nodup hdist (fun li hli hkey => ?_) (hnn it0 hit0)
  obtain ⟨v, hv⟩ := forallTwo_mem_left hf2 hli
  obtain ⟨-, hqv, -, -, -, hfound, -, hnlt⟩ := lineCheck_ok_facts hv
  obtain ⟨hvid, hvmem⟩ := getItem_eq_some hfound
  have hsame : v.item = it0 :=
    List.inj_on_of_nodup_map hids hvmem hit0 (by rw [hvid, hkey])
  rw [← hqv, ← hsame]
  exact le_of_not_lt hnlt

theorem incomplete_line_rejects {s : DBState} {req : OrderRequest} {c : Bool}
    {lines : List LineItemData} {li : LineItemData}
    (hlines : req.items = some lines) (hmem : li ∈ lines)
    (hbad : li.item_id.getD 0 = 0 ∨ li.quantity.getD 1 = 0 ∨ li.price.getD 0 = 0) :
    (create_order s req c).1 = s ∧
    ∃ e, (create_order s req c).2 = .failure e ∧
      (e.statusCode = 400 ∨ e.statusCode = 404) := by
  have hnotok : ∀ (t : Int) (vls : List VLine),
      validateItems s.items lines = .ok (t, vls) → False := by
    intro t vls hv
    obtain ⟨v, hlc⟩ := forallTwo_mem_left (validateItems_ok_forall hv) hmem
    obtain ⟨hid, hqv, hpv, hq0, hp0, -, -, -⟩ := lineCheck_ok_facts hlc
    rcases hbad with hb | hb | hb
    · exact hid hb
    · exact hq0 (by rw [hqv, hb])
    · exact hp0 (by rw [hpv, hb])
  rcases create_order_cases s req c with ⟨e', heqq, hne⟩ |
    ⟨cd, lines', pm, t, vls, h1, h2, h3, h4, h5, h6, heqq⟩
  · rw [heqq]
    exact ⟨rfl, e', rfl, statusCode_client hne⟩
  · rw [hlines] at h2
    have hll := Option.some.inj h2
    subst hll
    exact (hnotok t vls h6).elim

theorem isEmpty_append_cons {α : Type} (pre : List α) (x : α) (post : List α) :
    (pre ++ x :: post).isEmpty = false := by
  cases pre <;> rfl

/-- Claim C1, counterexample: a request whose two line items both reference
item 1 with quantity 3 each (each within the stock of 5 on its own) is
accepted, and the accepted order leaves `quantity_left = -1 < 0`: the
stated invariant that `quantity_left` never goes negative fails, because
every line item is checked against the same undecremented stock value. -/
theorem stock_nonneg_cex :
    (create_order s0 reqDup true).2 = .created 1 60 ∧
    (create_order s0 reqDup true).1.items.map Item.quantity_left = [-1] ∧
    ¬ (∀ it ∈ (create_order s0 reqDup true).1.items, 0 ≤ it.quantity_left) ∧
    itemA.quantity_left = 5 ∧
    (∀ li ∈ [({ item_id := some 1, quantity := some 3, price := some 10 } : LineItemData),
             { item_id := some 1, quantity := some 3, price := some 10 }],
       li.quantity.getD 1 ≤ itemA.quantity_left) := by
  decide

/-- Claim C1 (amended): the rejection half holds for every request — if any
line item requests a quantity greater than the referenced item's current
`quantity_left`, `create_order` rejects the entire order and leaves the whole
store (hence every `quantity_left`) unchanged; the non-negativity half holds
under the precondition that the line items reference pairwise-distinct item
identifiers (with unique item ids and non-negative stock in the table). -/
theorem stock_invariant_amended :
    (∀ (s : DBState) (req : OrderRequest) (c : Bool) (lines : List LineItemData)
        (li : LineItemData) (it : Item),
        req.items = some lines → li ∈ lines →
        getItem s.items (li.item_id.getD 0) = some it →
        it.quantity_left < li.quantity.getD 1 →
        (create_order s req c).1 = s ∧ ∃ e, (create_order s req c).2 = .failure e) ∧
    (∀ (s : DBState) (req : OrderRequest) (lines : List LineItemData) (oid total : Int),
        (s.items.map Item.id).Nodup →
        (∀ it ∈ s.items, 0 ≤ it.quantity_left) →
        req.items = some lines →
        (lines.map (fun li => li.item_id.getD 0)).Nodup →
        (create_order s req true).2 = .created oid total →
        ∀ it ∈ (create_order s req true).1.items, 0 ≤ it.quantity_left) :=
  ⟨fun _ _ _ _ _ _ h1 h2 h3 h4 => reject_insufficient_aux h1 h2 h3 h4,
   fun _ _ _ _ _ h1 h2 h3 h4 h5 => stock_nonneg_aux h1 h2 h3 h4 h5⟩

/-- Witness for `stock_invariant_amended`: ordering 9 of item 1 (stock 5)
is rejected with the store unchanged, and the accepted single-line example
order leaves all stock non-negative. -/
theorem stock_invariant_amended_witness :
    ((create_order s0 reqTooMany true).1 = s0 ∧
      ∃ e, (create_order s0 reqTooMany true).2 = .failure e) ∧
    (∀ it ∈ (create_order s0 reqExample true).1.items, 0 ≤ it.quantity_left) :=
  ⟨stock_invariant_amended.1 s0 reqTooMany true
      [{ item_id := some 1, quantity := some 9, price := some 10 }]
      { item_id := some 1, quantity := some 9, price := some 10 } itemA
      (by decide) (by decide) (by decide) (by decide),
   stock_invariant_amended.2 s0 reqExample exLines 1 30
      (by decide) (by decide) (by decide) (by decide) (by decide)⟩

/-- Claim C2: for every accepted order-creation request, the returned
`total_amount` equals Σ(price × quantity) over the submitted line items as
the handler reads them, the persisted `Order` row for the returned order id
carries exactly that `total_amount`, and Σ(`quantity * price_at_time`) over
that order's `OrderItem` rows equals it as well. -/
theorem order_total_matches {s : DBState} {req : OrderRequest}
    {lines : List LineItemData} {oid total : Int}
    (hlines : req.items = some lines)
    (hfresh : ∀ r ∈ s.order_rows, r.order_id ≠ s.next_order_id)
    (h : (create_order s req true).2 = .created oid total) :
    total = requestTotal lines ∧
    ∃ o ∈ (create_order s req true).1.orders,
      o.id = oid ∧ o.total_amount = total ∧
      orderRowsTotal ((create_order s req true).1.order_rows.filter
        (fun r => r.order_id == oid)) = total := by
  obtain ⟨-, hoid, cd, lines', pm, vls, h1, h2, h3, h4, h5, h6, heq⟩ :=
    create_order_created_inv h
  rw [hlines] at h2
  have hll := Option.some.inj h2
  subst hll
  subst hoid
  have hf2 := validateItems_ok_forall h6
  have htot := validateItems_ok_total h6
  refine ⟨htot, ?_⟩
  rw [heq, commitOrder_ok]
  dsimp only
  refine ⟨_, List.mem_append_right _ (List.mem_singleton_self _), rfl, rfl, ?_⟩
  rw [List.filter_append, filter_drop_all hfresh, List.nil_append,
    mkOrderRows_eq_rowsOfLines hf2,
    filter_keep_all (rowsOfLines_order_id _ _ _),
    orderRowsTotal_rowsOfLines]
  exact htot.symm

/-- Witness for `order_total_matches` at the spec's worked example
(3 × price 10 → total 30). -/
theorem order_total_matches_witness :
    (30 : Int) = requestTotal exLines ∧
    ∃ o ∈ (create_order s0 reqExample true).1.orders,
      o.id = 1 ∧ o.total_amount = 30 ∧
      orderRowsTotal ((create_order s0 reqExample true).1.order_rows.filter
        (fun r => r.order_id == 1)) = 30 :=
  order_total_matches (by decide) (by decide) (by decide)

/-- Claim C3: an accepted order decrements each item's `quantity_left` by
exactly the quantity the request orders of it, appends exactly one
`OrderItem` row per submitted line item (with consecutive fresh ids and the
caller-supplied price snapshotted into `price_at_time`), and nothing else
changes in those two tables. -/
theorem accepted_order_effects {s : DBState} {req : OrderRequest}
    {lines : List LineItemData} {oid total : Int}
    (hlines : req.items = some lines)
    (h : (create_order s req true).2 = .created oid total) :
    (create_order s req true).1.items
      = s.items.map (fun it =>
          { it with quantity_left := it.quantity_left - orderedQty lines it.id }) ∧
    (create_order s req true).1.order_rows
      = s.order_rows ++ rowsOfLines oid s.next_order_item_id lines ∧
    (rowsOfLines oid s.next_order_item_id lines).length = lines.length := by
  obtain ⟨-, hoid, cd, lines', pm, vls, h1, h2, h3, h4, h5, h6, heq⟩ :=
    create_order_created_inv h
  rw [hlines] at h2
  have hll := Option.some.inj h2
  subst hll
  subst hoid
  have hf2 := validateItems_ok_forall h6
  rw [heq, commitOrder_ok]
  dsimp only
  refine ⟨?_, ?_, rowsOfLines_length _ _ _⟩
  · rw [applyDecrements_eq_map]
    have hfun : (fun it : Item =>
        { it with quantity_left := it.quantity_left - decTotal vls it.id })
        = (fun it : Item =>
          { it with quantity_left := it.quantity_left - orderedQty lines it.id }) := by
      funext it
      rw [decTotal_eq_orderedQty hf2]
    rw [hfun]
  · rw [mkOrderRows_eq_rowsOfLines hf2]

/-- Witness for `accepted_order_effects`: item A with `quantity_left = 5`
ordered with quantity 3 at price 10 ends at `quantity_left = 2`, one
`OrderItem` row is created, and the response is `created` with total 30. -/
theorem accepted_order_effects_witness :
    ((create_order s0 reqExample true).1.items
        = s0.items.map (fun it =>
            { it with quantity_left := it.quantity_left - orderedQty exLines it.id }) ∧
      (create_order s0 reqExample true).1.order_rows
        = s0.order_rows ++ rowsOfLines 1 s0.next_order_item_id exLines ∧
      (rowsOfLines 1 s0.next_order_item_id exLines).length = exLines.length) ∧
    (create_order s0 reqExample true).1.items.map Item.quantity_left = [2] ∧
    (create_order s0 reqExample true).2 = .created 1 30 :=
  ⟨@accepted_order_effects s0 reqExample exLines 1 30 (by decide) (by decide),
   by decide, by decide⟩

/-- Claim C4: every failing outcome of `create_order` leaves the stored
state exactly as it was (the rollback in the `except` branch persists no
side effect), and when validation passes but the commit fails, the caller
gets the generic 500 failure with the store unchanged. -/
theorem rollback_on_commit_failure :
    (∀ (s : DBState) (req : OrderRequest) (c : Bool) (e : OrderError),
        (create_order s req c).2 = .failure e → (create_order s req c).1 = s) ∧
    (∀ (s : DBState) (req : OrderRequest) (oid total : Int),
        (create_order s req true).2 = .created oid total →
        create_order s req false = (s, .failure .createFailed) ∧
        OrderError.createFailed.statusCode = 500) := by
  constructor
  · exact fun s req c e h => create_order_unchanged_of_failure h
  · intro s req oid total h
    obtain ⟨-, -, cd, lines, pm, vls, h1, h2, h3, h4, h5, h6, -⟩ :=
      create_order_created_inv h
    exact ⟨by rw [create_order_eq_commit h1 h2 h3 h4 h5 h6 false, commitOrder_not_ok], rfl⟩

/-- Witness for `rollback_on_commit_failure`: a rejected order leaves `s0`
unchanged, and the example order that would succeed returns the generic
failure with `s0` unchanged when the commit fails. -/
theorem rollback_on_commit_failure_witness :
    (create_order s0 reqTooMany true).1 = s0 ∧
    (create_order s0 reqExample false = (s0, .failure .createFailed) ∧
      OrderError.createFailed.statusCode = 500) :=
  ⟨rollback_on_commit_failure.1 s0 reqTooMany true (.insufficientStock "A" 5) (by decide),
   rollback_on_commit_failure.2 s0 reqExample 1 30 (by decide)⟩

/-- Claim C5: on an accepted order, if a customer row with the submitted
email already exists, the handler mutates the first such row in place — the
table keeps its length, no duplicate row appears; if no row carries that
email, exactly one new customer row is appended, built from the request. -/
theorem customer_upsert_no_duplicate {s : DBState} {req : OrderRequest}
    {cd : CustomerData} {e : String} {oid total : Int}
    (hcd : req.customer = some cd) (he : cd.email = some e)
    (h : (create_order s req true).2 = .created oid total) :
    ((∃ c ∈ s.customers, c.email = e) →
      (create_order s req true).1.customers
          = updateFirstByEmail e (overwriteCustomer cd) s.customers ∧
      (create_order s req true).1.customers.length = s.customers.length) ∧
    ((∀ c ∈ s.customers, c.email ≠ e) →
      (create_order s req true).1.customers
        = s.customers ++
          [{ id := s.next_customer_id
             first_name := cd.first_name.getD ""
             last_name := cd.last_name.getD ""
             email := e
             phone := cd.phone.getD ""
             address := cd.address.getD ""
             city := cd.city.getD ""
             postal_code := cd.postal_code.getD ""
             country := cd.country.getD "TW" }]) := by
  obtain ⟨-, -, cd', lines, pm, vls, h1, h2, h3, h4, h5, h6, heq⟩ :=
    create_order_created_inv h
  rw [hcd] at h1
  have hcc := Option.some.inj h1
  subst hcc
  have hge : cd.email.getD "" = e := by rw [he]; rfl
  rw [heq, commitOrder_ok]
  dsimp only
  constructor
  · rintro ⟨c, hc, hce⟩
    have hsome : (s.customers.find? (fun x => x.email == cd.email.getD "")).isSome := by
      rw [hge]
      exact List.find?_isSome.mpr ⟨c, hc, by simp [hce]⟩
    obtain ⟨c0, hc0⟩ := Option.isSome_iff_exists.mp hsome
    unfold upsertCustomer
    simp only [hc0]
    rw [hge]
    exact ⟨rfl, updateFirstByEmail_length _ _ _⟩
  · intro hno
    have hnone : s.customers.find? (fun x => x.email == cd.email.getD "") = none := by
      rw [hge]
      exact List.find?_eq_none.mpr (fun x hx => by simp [hno x hx])
    unfold upsertCustomer
    simp only [hnone]
    rw [hge]

/-- Witness for `customer_upsert_no_duplicate`: against `s1` (email already
present) the customer table keeps length 1; against `s0` (no such email)
exactly the one new row is appended. -/
theorem customer_upsert_no_duplicate_witness :
    ((create_order s1 reqExample true).1.customers
        = updateFirstByEmail "alice@example.com" (overwriteCustomer cdAlice) s1.customers ∧
      (create_order s1 reqExample true).1.customers.length = s1.customers.length) ∧
    ((create_order s0 reqExample true).1.customers
        = s0.customers ++
          [{ id := s0.next_customer_id
             first_name := "Alice"
             last_name := "Liu"
             email := "alice@example.com"
             phone := "0912345678"
             address := "1 Main St"
             city := "Taipei"
             postal_code := "100"
             country := "TW" }]) :=
  ⟨(@customer_upsert_no_duplicate s1 reqExample cdAlice "alice@example.com" 1 30
      (by decide) (by decide) (by decide)).1 (by decide),
   (@customer_upsert_no_duplicate s0 reqExample cdAlice "alice@example.com" 1 30
      (by decide) (by decide) (by decide)).2 (by decide)⟩

/-- Claim C6, counterexample: a line item whose `quantity` key is missing is
not rejected — `item_data.get('quantity', 1)` defaults it to 1, which is
truthy, so the order for item 1 (existing, active, stock 5) is accepted
with quantity 1, decrementing stock from 5 to 4; the claim's assertion that
a missing quantity draws a client error fails on the code. -/
theorem missing_quantity_accepted_cex :
    reqNoQty.items = some [{ item_id := some 1, quantity := none, price := some 10 }] ∧
    (create_order s0 reqNoQty true).2 = .created 1 10 ∧
    (create_order s0 reqNoQty true).1.items.map Item.quantity_left = [4] := by
  decide

/-- Claim C6 (amended): a line item with a missing item identifier or a
missing price — or any of the three fields present but falsy — makes
`create_order` reject the request with a client error (400 or 404, never
the 500 commit failure) and no state change; a missing `quantity`, by
contrast, is not rejected: the handler defaults it to 1 and the line passes
validation whenever the remaining checks do; the per-line checks fire in
source order — incomplete data first, then item not found, then inactive
(even if stock is also short), then insufficient stock. -/
theorem line_item_validation_order :
    (∀ (s : DBState) (req : OrderRequest) (c : Bool) (lines : List LineItemData)
        (li : LineItemData),
        req.items = some lines → li ∈ lines →
        (li.item_id = none ∨ li.price = none ∨
          li.item_id.getD 0 = 0 ∨ li.quantity.getD 1 = 0 ∨ li.price.getD 0 = 0) →
        (create_order s req c).1 = s ∧
        ∃ e, (create_order s req c).2 = .failure e ∧
          (e.statusCode = 400 ∨ e.statusCode = 404)) ∧
    (∀ (stock : List Item) (li : LineItemData) (it : Item),
        li.quantity = none →
        li.item_id.getD 0 ≠ 0 → li.price.getD 0 ≠ 0 →
        getItem stock (li.item_id.getD 0) = some it → it.is_active = true →
        ¬ it.quantity_left < 1 →
        lineCheck stock li = .ok ⟨it, 1, li.price.getD 0⟩) ∧
    (∀ (stock : List Item) (li : LineItemData),
        (li.item_id.getD 0 = 0 ∨ li.quantity.getD 1 = 0 ∨ li.price.getD 0 = 0) →
        lineCheck stock li = .error .incompleteItemData) ∧
    (∀ (stock : List Item) (li : LineItemData),
        li.item_id.getD 0 ≠ 0 → li.quantity.getD 1 ≠ 0 → li.price.getD 0 ≠ 0 →
        getItem stock (li.item_id.getD 0) = none →
        lineCheck stock li = .error (.itemNotFound (li.item_id.getD 0))) ∧
    (∀ (stock : List Item) (li : LineItemData) (it : Item),
        li.item_id.getD 0 ≠ 0 → li.quantity.getD 1 ≠ 0 → li.price.getD 0 ≠ 0 →
        getItem stock (li.item_id.getD 0) = some it → it.is_active = false →
        lineCheck stock li = .error (.itemInactive it.name)) ∧
    (∀ (stock : List Item) (li : LineItemData) (it : Item),
        li.item_id.getD 0 ≠ 0 → li.quantity.getD 1 ≠ 0 → li.price.getD 0 ≠ 0 →
        getItem stock (li.item_id.getD 0) = some it → it.is_active = true →
        it.quantity_left < li.quantity.getD 1 →
        lineCheck stock li = .error (.insufficientStock it.name it.quantity_left)) := by
  refine ⟨?_, ?_, ?_, ?_, ?_, ?_⟩
  · intro s req c lines li h1 h2 h3
    apply incomplete_line_rejects h1 h2
    rcases h3 with h | h | h | h | h
    · left
      rw [h]
      rfl
    · right
      right
      rw [h]
      rfl
    · left
      exact h
    · right
      left
      exact h
    · right
      right
      exact h
  · intro stock li it hqnone hid hp hfound hact hstock
    have hq1 : li.quantity.getD 1 = 1 := by rw [hqnone]; rfl
    have hok := lineCheck_ok_of_checks hid (by rw [hq1]; exact one_ne_zero) hp hfound hact
      (by rw [hq1]; exact hstock)
    rw [hq1] at hok
    exact hok
  · exact fun _ _ h => lineCheck_incomplete h
  · exact fun _ _ h1 h2 h3 h4 => lineCheck_notFound h1 h2 h3 h4
  · exact fun _ _ _ h1 h2 h3 h4 h5 => lineCheck_inactive h1 h2 h3 h4 h5
  · exact fun _ _ _ h1 h2 h3 h4 h5 h6 => lineCheck_insufficient h1 h2 h3 h4 h5 h6

/-- Witness for `line_item_validation_order`: a missing price rejects the
whole request with a client error and no state change; a missing quantity
passes `lineCheck` with quantity defaulted to 1; and each per-line check
fires at a concrete line item — notably the inactive error wins over
insufficient stock on `itemB`, which is both delisted and short. -/
theorem line_item_validation_order_witness :
    ((create_order s0 reqZeroQty true).1 = s0 ∧
      ∃ e, (create_order s0 reqZeroQty true).2 = .failure e ∧
        (e.statusCode = 400 ∨ e.statusCode = 404)) ∧
    lineCheck [itemA] { item_id := some 1, quantity := none, price := some 5 }
      = .ok ⟨itemA, 1, 5⟩ ∧
    lineCheck [itemA] { item_id := some 1, quantity := some 0, price := some 5 }
      = .error .incompleteItemData ∧
    lineCheck [itemA] { item_id := some 9, quantity := some 1, price := some 5 }
      = .error (.itemNotFound 9) ∧
    lineCheck [itemA, itemB] { item_id := some 2, quantity := some 5, price := some 5 }
      = .error (.itemInactive "B") ∧
    lineCheck [itemA] { item_id := some 1, quantity := some 9, price := some 5 }
      = .error (.insufficientStock "A" 5) :=
  ⟨line_item_validation_order.1 s0 reqZeroQty true
      [{ item_id := some 1, quantity := some 0, price := some 10 }]
      { item_id := some 1, quantity := some 0, price := some 10 }
      (by decide) (by decide) (by decide),
   line_item_validation_order.2.1 [itemA]
      { item_id := some 1, quantity := none, price := some 5 } itemA
      (by decide) (by decide) (by decide) (by decide) (by decide) (by decide),
   line_item_validation_order.2.2.1 [itemA]
      { item_id := some 1, quantity := some 0, price := some 5 } (by decide),
   line_item_validation_order.2.2.2.1 [itemA]
      { item_id := some 9, quantity := some 1, price := some 5 }
      (by decide) (by decide) (by decide) (by decide),
   line_item_validation_order.2.2.2.2.1 [itemA, itemB]
      { item_id := some 2, quantity := some 5, price := some 5 } itemB
      (by decide) (by decide) (by decide) (by decide) (by decide),
   line_item_validation_order.2.2.2.2.2 [itemA]
      { item_id := some 1, quantity := some 9, price := some 5 } itemA
      (by decide) (by decide) (by decide) (by decide) (by decide) (by decide)⟩

/-- Claim C7: a request whose line item references an item id matching no
`Item` row fails with the not-found error naming that id (HTTP 404), and
performs no writes at all — the returned state is exactly the input state
(no customer, order, order-item, or stock change). -/
theorem not_found_rejects {s : DBState} {req : OrderRequest} {c : Bool}
    {cd : CustomerData} {pm : String} {pre post : List LineItemData} {li : LineItemData}
    (h1 : req.customer = some cd) (h2 : req.items = some (pre ++ li :: post))
    (h3 : req.payment_method = some pm) (h4 : customerFieldMissing cd = none)
    (hpre : ∀ x ∈ pre, ∃ v, lineCheck s.items x = .ok v)
    (hid : li.item_id.getD 0 ≠ 0) (hq : li.quantity.getD 1 ≠ 0) (hp : li.price.getD 0 ≠ 0)
    (hmiss : getItem s.items (li.item_id.getD 0) = none) :
    create_order s req c = (s, .failure (.itemNotFound (li.item_id.getD 0))) ∧
    (OrderError.itemNotFound (li.item_id.getD 0)).statusCode = 404 := by
  have hval := validateItems_append_error (lineCheck_notFound hid hq hp hmiss) hpre post
  refine ⟨?_, rfl⟩
  unfold create_order
  simp only [h1, h2, h3, h4, isEmpty_append_cons, Bool.false_eq_true, if_false, hval]

/-- Witness for `not_found_rejects`: ordering item id 9 against `s0` (which
only holds item 1) returns the not-found failure for id 9 with `s0`
unchanged. -/
theorem not_found_rejects_witness :
    (create_order s0 reqGhost true = (s0, .failure (.itemNotFound 9)) ∧
      (OrderError.itemNotFound 9).statusCode = 404) ∧
    getItem s0.items 9 = none :=
  ⟨@not_found_rejects s0 reqGhost true cdAlice "cod" [] []
      { item_id := some 9, quantity := some 1, price := some 5 }
      (by decide) (by decide) (by decide) (by decide) (by simp)
      (by decide) (by decide) (by decide) (by decide),
   by decide⟩

/-- Claim C8: when the line items reference pairwise-distinct item
identifiers, an accepted order leaves every `quantity_left` non-negative —
the per-line check `quantity_left < quantity` (against the undecremented
stock) suffices exactly under this distinctness precondition. -/
theorem distinct_ids_stock_nonneg {s : DBState} {req : OrderRequest}
    {lines : List LineItemData} {oid total : Int}
    (hids : (s.items.map Item.id).Nodup)
    (hnn : ∀ it ∈ s.items, 0 ≤ it.quantity_left)
    (hlines : req.items = some lines)
    (hdist : (lines.map (fun li => li.item_id.getD 0)).Nodup)
    (h : (create_order s req true).2 = .created oid total) :
    ∀ it ∈ (create_order s req true).1.items, 0 ≤ it.quantity_left :=
  stock_nonneg_aux hids hnn hlines hdist h

/-- Witness for `distinct_ids_stock_nonneg` at the accepted example order
against `s1`: the one item of the resulting store, item 1 at
`quantity_left = 2`, is non-negative. -/
theorem distinct_ids_stock_nonneg_witness :
    0 ≤ ({ itemA with quantity_left := 2 } : Item).quantity_left :=
  @distinct_ids_stock_nonneg s1 reqExample exLines 1 30
    (by decide) (by decide) (by decide) (by decide) (by decide)
    { itemA with quantity_left := 2 } (by decide)

/-- Claim C9: a line item whose `quantity` or `price` key is present but
equal to `0` makes `create_order` reject the whole request with the
incomplete-line-item client error — Python falsiness treats `0` like an
absent key — regardless of the referenced item's existence, activity, or
stock. -/
theorem zero_field_rejects {s : DBState} {req : OrderRequest} {c : Bool}
    {cd : CustomerData} {pm : String} {pre post : List LineItemData} {li : LineItemData}
    (h1 : req.customer = some cd) (h2 : req.items = some (pre ++ li :: post))
    (h3 : req.payment_method = some pm) (h4 : customerFieldMissing cd = none)
    (hpre : ∀ x ∈ pre, ∃ v, lineCheck s.items x = .ok v)
    (hzero : li.quantity = some 0 ∨ li.price = some 0) :
    create_order s req c = (s, .failure .incompleteItemData) := by
  have hbad : li.item_id.getD 0 = 0 ∨ li.quantity.getD 1 = 0 ∨ li.price.getD 0 = 0 := by
    rcases hzero with hz | hz
    · right; left; rw [hz]; rfl
    · right; right; rw [hz]; rfl
  have hval := validateItems_append_error (lineCheck_incomplete hbad) hpre post
  unfold create_order
  simp only [h1, h2, h3, h4, isEmpty_append_cons, Bool.false_eq_true, if_false, hval]

/-- Witness for `zero_field_rejects`: quantity 0 for item 1 — which exists,
is active, and has stock 5 ≥ 3 — still yields the incomplete-data error with
`s0` unchanged. -/
theorem zero_field_rejects_witness :
    create_order s0 reqZeroQty true = (s0, .failure .incompleteItemData) ∧
    getItem s0.items 1 = some itemA ∧ itemA.is_active = true ∧ 3 ≤ itemA.quantity_left :=
  ⟨@zero_field_rejects s0 reqZeroQty true cdAlice "cod" [] []
      { item_id := some 1, quantity := some 0, price := some 10 }
      (by decide) (by decide) (by decide) (by decide) (by simp) (by decide),
   by decide, by decide, by decide⟩

/-- Claim C10: on the upsert-update path of an accepted order, the matched
customer row keeps its `id` and `email` (the record update below touches
neither); exactly `first_name`, `last_name`, `phone`, `address`, `city`,
`postal_code`, and `country` are overwritten with the request's values. -/
theorem upsert_update_frame {s : DBState} {req : OrderRequest} {cd : CustomerData}
    {e : String} {pre post : List Customer} {c0 : Customer} {oid total : Int}
    (hcd : req.customer = some cd) (he : cd.email = some e)
    (hsplit : s.customers = pre ++ c0 :: post)
    (hpre : ∀ c ∈ pre, c.email ≠ e) (hc0 : c0.email = e)
    (h : (create_order s req true).2 = .created oid total) :
    (create_order s req true).1.customers
      = pre ++ { c0 with
          first_name := cd.first_name.getD ""
          last_name := cd.last_name.getD ""
          phone := cd.phone.getD ""
          address := cd.address.getD ""
          city := cd.city.getD ""
          postal_code := cd.postal_code.getD ""
          country := cd.country.getD "TW" } :: post := by
  obtain ⟨-, -, cd', lines, pm, vls, h1, h2, h3, h4, h5, h6, heq⟩ :=
    create_order_created_inv h
  rw [hcd] at h1
  have hcc := Option.some.inj h1
  subst hcc
  have hge : cd.email.getD "" = e := by rw [he]; rfl
  rw [heq, commitOrder_ok]
  dsimp only
  unfold upsertCustomer
  rw [hge, hsplit]
  simp only [find_first_email hc0 hpre post]
  exact updateFirstByEmail_split hc0 hpre post

/-- Witness for `upsert_update_frame`: the accepted example order against
`s1` rewrites `custBob`'s mutable fields with Alice's data while keeping
`id = 7` and the email. -/
theorem upsert_update_frame_witness :
    (create_order s1 reqExample true).1.customers
      = [] ++ { custBob with
          first_name := "Alice"
          last_name := "Liu"
          phone := "0912345678"
          address := "1 Main St"
          city := "Taipei"
          postal_code := "100"
          country := "TW" } :: [] :=
  @upsert_update_frame s1 reqExample cdAlice "alice@example.com" [] [] custBob 1 30
    (by decide) (by decide) (by decide) (by simp) (by decide) (by decide)
